import Mathlib

/-!
Verification of the ledger domain model of the BookKeepCA bookkeeping app
(src/app.py) against its natural-language specification.

Shallow embedding notes:
* Opaque uuid identifiers are modelled as natural numbers; a fresh id is
  passed explicitly to each creating operation.
* Python dict records become Lean structures; the optional
  `from_account_id` / `to_account_id` keys of a transaction dict become
  `Option Nat` fields (absent key = `none`; reading an absent key raises
  KeyError in Python, modelled by `Option` results).
* Monetary values, which the Python code stores as `float`, are modelled
  as exact rationals `ℚ`; the adequacy of that idealisation is itself the
  subject of one of the spec's numerical claims and is assessed there.
* Python exceptions abort the computation that raises them; a Lean
  function that can raise returns `Option`, with `none` for the raising
  runs.  Operations that cannot raise are total functions.
-/

/-- The fixed category list `CATEGORIES` of src/app.py (lines 48-53). -/
def CATEGORIES : List String :=
  ["Sales", "Services", "Advertising", "Meals & Entertainment",
   "Office Supplies", "Rent", "Salaries", "Software", "Travel",
   "Utilities", "Inventory", "Bank Fees", "GST/HST Paid", "GST/HST Collected",
   "Owner Draw", "Owner Investment"]

/-- An account record as built by `DataManager.create_account`
(src/app.py lines 102-111): id, business_id, name, type, initial
balance and the `is_active` flag. -/
structure Account where
  id : Nat
  business_id : Nat
  name : String
  type_ : String
  initial_balance : ℚ
  is_active : Bool
deriving DecidableEq, Repr

/-- A transaction record as built by `DataManager.add_transaction`
(src/app.py lines 116-123) from the form data of `dashboard_view`
(lines 290-299): the `from_account_id` / `to_account_id` keys are only
present for transfers, hence `Option`. `date` is the server-assigned
timestamp. -/
structure Tx where
  id : Nat
  business_id : Nat
  date : Nat
  type_ : String
  amount : ℚ
  description : String
  category : String
  account_id : Nat
  from_account_id : Option Nat
  to_account_id : Option Nat
deriving DecidableEq, Repr

/-- The transaction payload assembled by the form in `dashboard_view`
(src/app.py lines 290-299) before `add_transaction` adds the generated
id, business id and timestamp. -/
structure TxData where
  type_ : String
  amount : ℚ
  description : String
  category : String
  account_id : Nat
  from_account_id : Option Nat
  to_account_id : Option Nat
deriving DecidableEq, Repr

/-- `DataManager.create_account` (src/app.py lines 102-111): builds the
account record with a fresh id and `is_active = True` and appends it to
the account collection.  No field is validated and nothing is returned
(the Python method returns `None`); the embedding returns the new
collection. -/
def create_account (accounts : List Account) (fresh_id : Nat)
    (business_id : Nat) (name : String) (type_ : String) (balance : ℚ) :
    List Account :=
  accounts ++ [{ id := fresh_id, business_id := business_id, name := name,
                 type_ := type_, initial_balance := balance,
                 is_active := true }]

/-- The transaction record `add_transaction` appends: the payload plus a
generated id, the business id and the server timestamp
(src/app.py lines 117-122). -/
def mkTx (fresh_id : Nat) (business_id : Nat) (date : Nat) (data : TxData) :
    Tx :=
  { id := fresh_id, business_id := business_id, date := date,
    type_ := data.type_, amount := data.amount,
    description := data.description, category := data.category,
    account_id := data.account_id,
    from_account_id := data.from_account_id,
    to_account_id := data.to_account_id }

/-- `DataManager.add_transaction` (src/app.py lines 116-123): appends the
record to the transaction list.  There is no validation of any kind and
the method cannot fail. -/
def add_transaction (transactions : List Tx) (fresh_id : Nat)
    (business_id : Nat) (date : Nat) (data : TxData) : List Tx :=
  transactions ++ [mkTx fresh_id business_id date data]

/-- `DataManager.get_accounts` (src/app.py lines 113-114). -/
def get_accounts (accounts : List Account) (business_id : Nat) :
    List Account :=
  accounts.filter (fun a => a.business_id == business_id)

/-- `DataManager.get_transactions` (src/app.py lines 125-126). -/
def get_transactions (transactions : List Tx) (business_id : Nat) :
    List Tx :=
  transactions.filter (fun t => t.business_id == business_id)

/-- The dict comprehension `{a['id']: a['initial_balance'] for a in
accounts}` of src/app.py line 204, as a total function on keys; a later
account with the same id overwrites an earlier one, exactly as in a
Python dict.  (A key outside the dict would raise KeyError; the fold
below only reads and writes keys it has checked, and the final theorems
only query ids of accounts.) -/
def init_balances (accounts : List Account) : Nat → ℚ :=
  accounts.foldl
    (fun m a => fun x => if x = a.id then a.initial_balance else m x)
    (fun _ => 0)

/-- `acc_balances[k] += v` on the balance map. -/
def bump (m : Nat → ℚ) (k : Nat) (v : ℚ) : Nat → ℚ :=
  fun x => if x = k then m x + v else m x

/-- One iteration of the balance fold of src/app.py lines 205-213:
Inflow adds to `account_id`, Outflow subtracts from it, Transfer
subtracts from `from_account_id` and adds to `to_account_id`; a
transaction of any other type is silently skipped (the if/elif chain has
no else branch).  `keys` is the key set of the dict; touching a missing
key, or reading the absent `from_account_id` / `to_account_id` key of
the dict, raises KeyError, modelled by `none`. -/
def apply_transaction (keys : List Nat) (m : Nat → ℚ) (t : Tx) :
    Option (Nat → ℚ) :=
  if t.type_ = "Inflow" then
    if t.account_id ∈ keys then some (bump m t.account_id t.amount) else none
  else if t.type_ = "Outflow" then
    if t.account_id ∈ keys then some (bump m t.account_id (-t.amount)) else none
  else if t.type_ = "Transfer" then
    match t.from_account_id, t.to_account_id with
    | some fa, some ta =>
        if fa ∈ keys ∧ ta ∈ keys then
          some (bump (bump m fa (-t.amount)) ta t.amount)
        else none
    | _, _ => none
  else some m

/-- The balance computation of `dashboard_view` (src/app.py lines
204-213): start from the opening balances and fold the business's
transactions in insertion order. -/
def compute_balances (accounts : List Account) (transactions : List Tx) :
    Option (Nat → ℚ) :=
  transactions.foldlM (apply_transaction (accounts.map Account.id))
    (init_balances accounts)

/-- `assets` (src/app.py line 216): sum over the items of the balance
dict — in insertion order these are `(a.id, balance)` for each account —
of the balances whose key is the id of some account whose type is not
Credit Card. -/
def assets (accounts : List Account) (bal : Nat → ℚ) : ℚ :=
  (accounts.map (fun a => (a.id, bal a.id))).foldl
    (fun s p =>
      if accounts.any (fun a => a.type_ ≠ "Credit Card" ∧ a.id = p.1) then
        s + p.2
      else s)
    0

/-- `liabilities` (src/app.py lines 218-224): for each account, a Credit
Card account contributes the absolute value of its balance; any other
account contributes the absolute value of its balance when that balance
is negative. -/
def liabilities (accounts : List Account) (bal : Nat → ℚ) : ℚ :=
  accounts.foldl
    (fun s a =>
      if a.type_ = "Credit Card" then s + |bal a.id|
      else if bal a.id < 0 then s + |bal a.id|
      else s)
    0

/-- `net_position = assets - liabilities` (src/app.py line 226). -/
def net_position (accounts : List Account) (bal : Nat → ℚ) : ℚ :=
  assets accounts bal - liabilities accounts bal

/-- The seeded Bank account of the demo business (id 1). -/
def demoBank : Account :=
  { id := 1, business_id := 1, name := "Main Chequing", type_ := "Bank",
    initial_balance := 0, is_active := true }

/-- The seeded Credit Card account of the demo business. -/
def demoCard : Account :=
  { id := 2, business_id := 1, name := "Corporate Card",
    type_ := "Credit Card", initial_balance := 0, is_active := true }

/-- The two seeded demo accounts: a Bank account and a Credit Card
account of business 1, both with opening balance 0. -/
def demoAccounts : List Account := [demoBank, demoCard]

/-- Scenario transaction: Inflow 1000 to the Bank account. -/
def demoInflow : Tx :=
  { id := 10, business_id := 1, date := 0, type_ := "Inflow",
    amount := 1000, description := "Client payment", category := "Sales",
    account_id := 1, from_account_id := none, to_account_id := none }

/-- Scenario transaction: Outflow 200 from the Bank account. -/
def demoOutflow : Tx :=
  { id := 11, business_id := 1, date := 1, type_ := "Outflow",
    amount := 200, description := "Team lunch",
    category := "Meals & Entertainment", account_id := 1,
    from_account_id := none, to_account_id := none }

/-- Scenario transaction: Transfer 150 from the Bank account to the
Credit Card account; stored with category "Transfer" as the form does. -/
def demoTransfer : Tx :=
  { id := 12, business_id := 1, date := 2, type_ := "Transfer",
    amount := 150, description := "Card payment", category := "Transfer",
    account_id := 1, from_account_id := some 1, to_account_id := some 2 }

/-- The scenario ledger: Inflow 1000 to Bank, Outflow 200 from Bank,
Transfer 150 Bank to Credit Card. -/
def demoTxs : List Tx := [demoInflow, demoOutflow, demoTransfer]

/-- An outflow payload with the non-positive amount -5. -/
def negData : TxData :=
  { type_ := "Outflow", amount := -5, description := "refund",
    category := "Sales", account_id := 1,
    from_account_id := none, to_account_id := none }

/-- A Transfer payload whose from-account equals its to-account. -/
def selfTransferData : TxData :=
  { type_ := "Transfer", amount := 25, description := "loop",
    category := "Transfer", account_id := 1,
    from_account_id := some 1, to_account_id := some 1 }

/-- The mutable part of the session store relevant to the ledger model:
the account and transaction collections (src/app.py lines 77-83). -/
structure Store where
  accounts : List Account
  transactions : List Tx
deriving DecidableEq, Repr

/-- The store states reachable through the app's UI.  The store starts
empty (src/app.py lines 77-83).  `create_business` seeds a Bank and a
Credit Card account with opening balance 0 (lines 88-94).  The Accounts
form passes arbitrary user input to `create_account` (lines 326-333).
The Transactions form (lines 269-304) is the only caller of
`add_transaction`: the type selectbox offers Outflow, Inflow and
Transfer; the amount widget enforces a minimum of 0.01; the category
selectbox picks from `CATEGORIES`, but a Transfer is stored with the
literal category "Transfer" (line 294); the account selectboxes offer
the accounts of the current business, and for a Transfer the to-account
is chosen among the accounts whose name differs from the from-account's
name (line 287). -/
inductive Reachable : Store → Prop where
  | init : Reachable ⟨[], []⟩
  | business_created (s : Store) (bus_id fid1 fid2 : Nat) :
      Reachable s →
      Reachable ⟨create_account
        (create_account s.accounts fid1 bus_id "Main Chequing" "Bank" 0)
        fid2 bus_id "Corporate Card" "Credit Card" 0, s.transactions⟩
  | account_created (s : Store) (fid bid : Nat) (name type_ : String)
      (bal : ℚ) :
      Reachable s →
      Reachable ⟨create_account s.accounts fid bid name type_ bal,
        s.transactions⟩
  | single_recorded (s : Store) (fid bid ts : Nat) (type_ : String)
      (amount : ℚ) (desc category : String) (acc : Account) :
      Reachable s →
      type_ = "Outflow" ∨ type_ = "Inflow" →
      1/100 ≤ amount →
      category ∈ CATEGORIES →
      acc ∈ s.accounts →
      acc.business_id = bid →
      Reachable ⟨s.accounts,
        add_transaction s.transactions fid bid ts
          ⟨type_, amount, desc, category, acc.id, none, none⟩⟩
  | transfer_recorded (s : Store) (fid bid ts : Nat) (amount : ℚ)
      (desc category : String) (accFrom accTo : Account) :
      Reachable s →
      1/100 ≤ amount →
      category ∈ CATEGORIES →
      accFrom ∈ s.accounts →
      accFrom.business_id = bid →
      accTo ∈ s.accounts →
      accTo.business_id = bid →
      accFrom.name ≠ accTo.name →
      Reachable ⟨s.accounts,
        add_transaction s.transactions fid bid ts
          ⟨"Transfer", amount, desc, "Transfer", accFrom.id,
            some accFrom.id, some accTo.id⟩⟩

/-! ## Ledger search (src/app.py lines 307-314) -/

/-- Case-insensitive match of one pattern character against one text
character, with the regex wildcard dot matching any character.  Models
the fragment of the Python regex semantics that
`Series.str.contains(search, case=False)` (src/app.py line 314)
applies: pandas compiles the search string as a regular expression with
IGNORECASE.  Only literal characters and the dot wildcard are
modelled; patterns holding any other regex metacharacter are outside
this model and must not be fed to it. -/
def re_char_matches (p c : Char) : Bool :=
  p = '.' || p.toLower = c.toLower

/-- Does the pattern (modelled regex fragment) match a prefix of the
text? -/
def re_match_here : List Char → List Char → Bool
  | [], _ => true
  | _ :: _, [] => false
  | p :: ps, c :: cs => re_char_matches p c && re_match_here ps cs

/-- `re.search` on the modelled fragment: does the pattern match at
some position of the text? -/
def re_search (pat : List Char) : List Char → Bool
  | [] => re_match_here pat []
  | c :: cs => re_match_here pat (c :: cs) || re_search pat cs

/-- The ledger search of `dashboard_view` (src/app.py lines 307-314):
an empty search string leaves the business's transactions unfiltered
(`if search:`); otherwise a row is kept when the compiled pattern
matches its description or its category. -/
def filter_transactions (transactions : List Tx) (bid : Nat)
    (search : String) : List Tx :=
  if search = "" then get_transactions transactions bid
  else (get_transactions transactions bid).filter (fun t =>
    re_search search.data t.description.data
      || re_search search.data t.category.data)

/-- Case-insensitive literal prefix test (no wildcard). -/
def lit_match_here : List Char → List Char → Bool
  | [], _ => true
  | _ :: _, [] => false
  | p :: ps, c :: cs => (p.toLower = c.toLower) && lit_match_here ps cs

/-- Case-insensitive substring containment, by sliding the literal
prefix test over the text. -/
def contains_ci (pat : List Char) : List Char → Bool
  | [] => lit_match_here pat []
  | c :: cs => lit_match_here pat (c :: cs) || contains_ci pat cs

/-- Modelled from the spec: "a case-insensitive substring filter over
description and category" — a transaction matches when its description
or its category contains the filter as a case-insensitive substring. -/
def spec_match (search : String) (t : Tx) : Bool :=
  contains_ci search.data t.description.data
    || contains_ci search.data t.category.data

/-- Modelled from the spec: `listTransactions` with the optional
substring filter — the business's transactions whose description or
category contains the filter as a case-insensitive substring (an empty
filter string keeps everything). -/
def spec_filter_transactions (transactions : List Tx) (bid : Nat)
    (search : String) : List Tx :=
  if search = "" then get_transactions transactions bid
  else (get_transactions transactions bid).filter (spec_match search)

/-- The characters that are metacharacters of Python regular
expressions. -/
def regex_metachars : List Char :=
  ['.', '^', '$', '*', '+', '?', '[', ']', '(', ')', '|', '\\',
   Char.ofNat 123, Char.ofNat 125]

/-! ## Signed effect of a transaction (specification of the fold) -/

/-- The signed effect of one transaction on the account with id `x`:
Inflow adds its amount to its account, Outflow subtracts it, Transfer
subtracts from the from-account and adds to the to-account, any other
type has no effect. -/
def signed_effect (t : Tx) (x : Nat) : ℚ :=
  if t.type_ = "Inflow" then (if t.account_id = x then t.amount else 0)
  else if t.type_ = "Outflow" then (if t.account_id = x then -t.amount else 0)
  else if t.type_ = "Transfer" then
    (if t.from_account_id = some x then -t.amount else 0) +
    (if t.to_account_id = some x then t.amount else 0)
  else 0

/-- Sum of the signed effects on account id `x` of a list of
transactions, in insertion order. -/
def tx_sum (txs : List Tx) (x : Nat) : ℚ :=
  (txs.map (fun t => signed_effect t x)).sum

/-- A transaction is valid for the key set `keys` (the ids of the
business's accounts) when the balance fold of src/app.py lines 205-213
can process it without a KeyError: Inflow/Outflow reference a known
account, Transfer carries both endpoint keys and they are known.
Transactions of any other type are skipped by the fold, hence valid. -/
def valid_tx (keys : List Nat) (t : Tx) : Bool :=
  if t.type_ = "Inflow" then decide (t.account_id ∈ keys)
  else if t.type_ = "Outflow" then decide (t.account_id ∈ keys)
  else if t.type_ = "Transfer" then
    match t.from_account_id, t.to_account_id with
    | some fa, some ta => decide (fa ∈ keys) && decide (ta ∈ keys)
    | _, _ => false
  else true

theorem apply_transaction_eq (keys : List Nat) (m : Nat → ℚ) (t : Tx)
    (h : valid_tx keys t = true) :
    apply_transaction keys m t = some (fun x => m x + signed_effect t x) := by
  unfold valid_tx at h
  unfold apply_transaction
  by_cases hin : t.type_ = "Inflow"
  · rw [if_pos hin] at h ⊢
    rw [if_pos (decide_eq_true_iff.mp h)]
    refine congrArg some (funext fun x => ?_)
    rw [signed_effect, if_pos hin]
    by_cases hx : t.account_id = x
    · subst hx; simp [bump]
    · have hx' : ¬ x = t.account_id := fun hc => hx hc.symm
      simp [bump, hx, hx']
  · rw [if_neg hin] at h ⊢
    by_cases hout : t.type_ = "Outflow"
    · rw [if_pos hout] at h ⊢
      rw [if_pos (decide_eq_true_iff.mp h)]
      refine congrArg some (funext fun x => ?_)
      rw [signed_effect, if_neg hin, if_pos hout]
      by_cases hx : t.account_id = x
      · subst hx; simp [bump]
      · have hx' : ¬ x = t.account_id := fun hc => hx hc.symm
        simp [bump, hx, hx']
    · rw [if_neg hout] at h ⊢
      by_cases htr : t.type_ = "Transfer"
      · rw [if_pos htr] at h ⊢
        cases hfa : t.from_account_id with
        | none => rw [hfa] at h; exact absurd h (by simp)
        | some fa =>
          cases hta : t.to_account_id with
          | none => rw [hfa, hta] at h; exact absurd h (by simp)
          | some ta =>
            simp only [hfa, hta, Bool.and_eq_true, decide_eq_true_iff] at h
            dsimp only
            rw [if_pos h]
            refine congrArg some (funext fun x => ?_)
            rw [signed_effect, if_neg hin, if_neg hout, if_pos htr, hfa, hta]
            simp only [Option.some.injEq]
            by_cases hx : ta = x <;> by_cases hy : fa = x
            · subst hx; subst hy; simp [bump]
            · subst hx
              have hy' : ¬ ta = fa := fun hc => hy hc.symm
              simp [bump, hy, hy']
            · subst hy
              have hx' : ¬ fa = ta := fun hc => hx hc.symm
              simp [bump, hx, hx']
            · have hx' : ¬ x = ta := fun hc => hx hc.symm
              have hy' : ¬ x = fa := fun hc => hy hc.symm
              simp [bump, hx, hy, hx', hy']
      · rw [if_neg htr]
        refine congrArg some (funext fun x => ?_)
        rw [signed_effect, if_neg hin, if_neg hout, if_neg htr]
        simp

theorem foldlM_balances (keys : List Nat) (txs : List Tx) :
    ∀ (m : Nat → ℚ), (∀ t ∈ txs, valid_tx keys t = true) →
      txs.foldlM (apply_transaction keys) m =
        some (fun x => m x + tx_sum txs x) := by
  induction txs with
  | nil =>
      intro m _
      simp only [List.foldlM_nil, tx_sum, List.map_nil, List.sum_nil, add_zero]
      rfl
  | cons t ts ih =>
      intro m h
      rw [List.foldlM_cons, apply_transaction_eq keys m t (h t (by simp))]
      rw [Option.bind_eq_bind', Option.some_bind']
      rw [ih _ (fun t' ht' => h t' (List.mem_cons_of_mem _ ht'))]
      refine congrArg some (funext fun x => ?_)
      simp only [tx_sum, List.map_cons, List.sum_cons]
      ring

theorem foldl_init_not_mem (accs : List Account) :
    ∀ (m : Nat → ℚ) (x : Nat), x ∉ accs.map Account.id →
      accs.foldl
        (fun m a => fun y => if y = a.id then a.initial_balance else m y) m x
        = m x := by
  induction accs with
  | nil => intro m x _; rfl
  | cons a as ih =>
      intro m x hx
      simp only [List.map_cons, List.mem_cons, not_or] at hx
      rw [List.foldl_cons, ih _ x hx.2]
      exact if_neg hx.1

theorem foldl_init_mem (accs : List Account) :
    ∀ (m : Nat → ℚ) (a : Account), a ∈ accs →
      (accs.map Account.id).Nodup →
      accs.foldl
        (fun m a => fun y => if y = a.id then a.initial_balance else m y) m a.id
        = a.initial_balance := by
  induction accs with
  | nil => intro m a ha _; exact absurd ha (List.not_mem_nil a)
  | cons b bs ih =>
      intro m a ha hnd
      rw [List.map_cons, List.nodup_cons] at hnd
      rcases List.mem_cons.mp ha with rfl | ha'
      · rw [List.foldl_cons, foldl_init_not_mem bs _ a.id hnd.1]
        exact if_pos rfl
      · rw [List.foldl_cons]
        exact ih _ a ha' hnd.2

theorem init_balances_eq (accs : List Account)
    (hnd : (accs.map Account.id).Nodup) (a : Account) (ha : a ∈ accs) :
    init_balances accs a.id = a.initial_balance :=
  foldl_init_mem accs _ a ha hnd

/-- C1: for every sequence of valid recorded transactions, the final
balance of every account of the business computed by the dashboard fold
equals that account's opening balance plus the sum of signed effects of
the business's transactions applied in insertion order — Inflow adds the
amount to its account, Outflow subtracts it, and Transfer subtracts from
the from-account and adds to the to-account. -/
theorem final_balance_eq_opening_plus_signed_sum
    (accounts : List Account) (transactions : List Tx) (bid : Nat)
    (hnd : ((get_accounts accounts bid).map Account.id).Nodup)
    (hval : ∀ t ∈ get_transactions transactions bid,
      valid_tx ((get_accounts accounts bid).map Account.id) t = true) :
    ∃ f, compute_balances (get_accounts accounts bid)
        (get_transactions transactions bid) = some f ∧
      ∀ a ∈ get_accounts accounts bid,
        f a.id = a.initial_balance +
          tx_sum (get_transactions transactions bid) a.id := by
  refine ⟨_, foldlM_balances _ _ _ hval, ?_⟩
  intro a ha
  show init_balances (get_accounts accounts bid) a.id + _ = _
  rw [init_balances_eq _ hnd a ha]

/-- Witness for C1 at the concrete demo business. -/
theorem final_balance_witness :
    ((get_accounts demoAccounts 1).map Account.id).Nodup ∧
    (∀ t ∈ get_transactions demoTxs 1,
      valid_tx ((get_accounts demoAccounts 1).map Account.id) t = true) ∧
    ∃ f, compute_balances (get_accounts demoAccounts 1)
        (get_transactions demoTxs 1) = some f ∧
      ∀ a ∈ get_accounts demoAccounts 1,
        f a.id = a.initial_balance +
          tx_sum (get_transactions demoTxs 1) a.id :=
  ⟨by decide, by decide,
    final_balance_eq_opening_plus_signed_sum demoAccounts demoTxs 1
      (by decide) (by decide)⟩

/-- C3: in the demo scenario — Bank and Credit Card accounts with
opening balance 0, then Inflow 1000 to Bank, Outflow 200 from Bank,
Transfer 150 Bank to Credit Card — the dashboard computes Bank balance
650, Credit Card balance 150, assets 650, liabilities 150 and net
position 500. -/
theorem scenario_dashboard :
    (compute_balances (get_accounts demoAccounts 1)
        (get_transactions demoTxs 1)).map
      (fun f => (f 1, f 2, assets (get_accounts demoAccounts 1) f,
        liabilities (get_accounts demoAccounts 1) f,
        net_position (get_accounts demoAccounts 1) f)) =
      some (650, 150, 650, 150, 500) := by
  simp only [demoAccounts, demoTxs, demoBank, demoCard, demoInflow,
    demoOutflow, demoTransfer, get_accounts, get_transactions,
    compute_balances, init_balances, apply_transaction, bump, assets,
    liabilities, net_position, List.filter, List.map, List.foldl,
    List.foldlM, List.any, Option.map, Option.bind]
  simp [bump]
  norm_num [abs_of_nonneg]

/-! ## KPI characterisation -/

theorem any_id_cond (accs : List Account)
    (hnd : (accs.map Account.id).Nodup) (a : Account) (ha : a ∈ accs) :
    (accs.any fun x => x.type_ ≠ "Credit Card" ∧ x.id = a.id)
      = (a.type_ != "Credit Card") := by
  rw [Bool.eq_iff_iff, List.any_eq_true, bne_iff_ne]
  constructor
  · rintro ⟨a', ha', hp⟩
    rw [decide_eq_true_iff] at hp
    have he := List.inj_on_of_nodup_map hnd ha' ha hp.2
    exact he ▸ hp.1
  · intro hne
    exact ⟨a, ha, decide_eq_true_iff.mpr ⟨hne, rfl⟩⟩

theorem assets_aux (accs : List Account) (bal : Nat → ℚ)
    (hnd : (accs.map Account.id).Nodup) :
    ∀ (l : List Account) (s : ℚ), (∀ a ∈ l, a ∈ accs) →
      (l.map (fun a => (a.id, bal a.id))).foldl
        (fun s p =>
          if accs.any (fun a => a.type_ ≠ "Credit Card" ∧ a.id = p.1) then
            s + p.2
          else s) s
      = s + ((l.filter (fun a => a.type_ != "Credit Card")).map
          (fun a => bal a.id)).sum := by
  intro l
  induction l with
  | nil => intro s _; simp
  | cons a as ih =>
      intro s hsub
      have ha : a ∈ accs := hsub a (by simp)
      have ihs := fun (q : ℚ) =>
        ih q (fun x hx => hsub x (List.mem_cons_of_mem _ hx))
      rw [List.map_cons, List.foldl_cons]
      dsimp only
      rw [any_id_cond accs hnd a ha]
      by_cases hcc : a.type_ = "Credit Card"
      · have hb : ¬ ((a.type_ != "Credit Card") = true) := by simp [hcc]
        rw [if_neg hb, List.filter_cons, if_neg hb]
        exact ihs s
      · have hb : (a.type_ != "Credit Card") = true := by simp [hcc]
        rw [if_pos hb, List.filter_cons, if_pos hb, List.map_cons,
          List.sum_cons, ihs (s + bal a.id)]
        ring

theorem liabilities_aux (bal : Nat → ℚ) :
    ∀ (l : List Account) (s : ℚ),
      l.foldl
        (fun s a =>
          if a.type_ = "Credit Card" then s + |bal a.id|
          else if bal a.id < 0 then s + |bal a.id|
          else s) s
      = s + ((l.filter (fun a => a.type_ == "Credit Card")).map
            (fun a => |bal a.id|)).sum
          + ((l.filter (fun a =>
              (a.type_ != "Credit Card") && decide (bal a.id < 0))).map
            (fun a => |bal a.id|)).sum := by
  intro l
  induction l with
  | nil => intro s; simp
  | cons a as ih =>
      intro s
      rw [List.foldl_cons]
      by_cases hcc : a.type_ = "Credit Card"
      · have h1 : (a.type_ == "Credit Card") = true := by simp [hcc]
        have h2 : ¬ (((a.type_ != "Credit Card")
            && decide (bal a.id < 0)) = true) := by simp [hcc]
        rw [if_pos hcc, List.filter_cons, if_pos h1, List.filter_cons,
          if_neg h2, List.map_cons, List.sum_cons, ih]
        ring
      · have h1 : ¬ ((a.type_ == "Credit Card") = true) := by simp [hcc]
        by_cases hneg : bal a.id < 0
        · have h2 : ((a.type_ != "Credit Card")
              && decide (bal a.id < 0)) = true := by simp [hcc, hneg]
          rw [if_neg hcc, if_pos hneg, List.filter_cons, if_neg h1,
            List.filter_cons, if_pos h2, List.map_cons, List.sum_cons, ih]
          ring
        · have h2 : ¬ (((a.type_ != "Credit Card")
              && decide (bal a.id < 0)) = true) := by simp [hcc, hneg]
          rw [if_neg hcc, if_neg hneg, List.filter_cons, if_neg h1,
            List.filter_cons, if_neg h2, ih]

/-- C4: for every set of accounts and every balance map, the three KPIs
of the dashboard satisfy netPosition = assets - liabilities exactly,
where assets is the sum of the balances of the accounts whose kind is
not Credit Card and liabilities is the sum of the absolute balances of
the Credit Card accounts plus the absolute balances of the other
accounts whose balance is negative. -/
theorem kpi_identity (accs : List Account) (bal : Nat → ℚ)
    (hnd : (accs.map Account.id).Nodup) :
    net_position accs bal = assets accs bal - liabilities accs bal ∧
    assets accs bal
      = ((accs.filter (fun a => a.type_ != "Credit Card")).map
          (fun a => bal a.id)).sum ∧
    liabilities accs bal
      = ((accs.filter (fun a => a.type_ == "Credit Card")).map
            (fun a => |bal a.id|)).sum
        + ((accs.filter (fun a =>
            (a.type_ != "Credit Card") && decide (bal a.id < 0))).map
          (fun a => |bal a.id|)).sum := by
  refine ⟨rfl, ?_, ?_⟩
  · unfold assets
    rw [assets_aux accs bal hnd accs 0 (fun a ha => ha), zero_add]
  · unfold liabilities
    rw [liabilities_aux bal accs 0, zero_add]

/-- Witness for C4 at the demo accounts with their opening balances. -/
theorem kpi_identity_witness :
    ((demoAccounts.map Account.id).Nodup) ∧
    (net_position demoAccounts (init_balances demoAccounts)
        = assets demoAccounts (init_balances demoAccounts)
          - liabilities demoAccounts (init_balances demoAccounts) ∧
      assets demoAccounts (init_balances demoAccounts)
        = ((demoAccounts.filter (fun a => a.type_ != "Credit Card")).map
            (fun a => init_balances demoAccounts a.id)).sum ∧
      liabilities demoAccounts (init_balances demoAccounts)
        = ((demoAccounts.filter (fun a => a.type_ == "Credit Card")).map
              (fun a => |init_balances demoAccounts a.id|)).sum
          + ((demoAccounts.filter (fun a =>
              (a.type_ != "Credit Card")
                && decide (init_balances demoAccounts a.id < 0))).map
            (fun a => |init_balances demoAccounts a.id|)).sum) :=
  ⟨by decide,
    kpi_identity demoAccounts (init_balances demoAccounts) (by decide)⟩

/-! ## Validation behaviour of the write operations -/

/-- C2 counterexample: calling `add_transaction` with the payload of
amount -5 ≤ 0 does not fail — the method has no validation path and no
error outcome — and it does mutate the ledger: the length grows from 0
to 1. -/
theorem add_transaction_nonpositive_appends :
    negData.amount ≤ 0 ∧ (add_transaction [] 9 1 0 negData).length = 1 := by
  constructor
  · norm_num [negData]
  · rfl

/-- C2 amended: `DataManager.add_transaction` itself never validates and
never fails: it appends the built record unconditionally, for every
payload including any with amount ≤ 0.  Amounts ≤ 0 are kept out of the
store only by the UI form, whose amount widget enforces a minimum of
0.01: in every store state reachable through the UI, every recorded
transaction has amount ≥ 1/100. -/
theorem add_transaction_no_validation :
    (∀ (ledger : List Tx) (fid bid ts : Nat) (data : TxData),
      add_transaction ledger fid bid ts data
        = ledger ++ [mkTx fid bid ts data]) ∧
    (∀ s, Reachable s → ∀ t ∈ s.transactions, 1/100 ≤ t.amount) := by
  constructor
  · intro ledger fid bid ts data; rfl
  · intro s hs
    induction hs with
    | init => intro t ht; exact absurd ht (List.not_mem_nil t)
    | business_created s bus fid1 fid2 _ ih => exact ih
    | account_created s fid bid name type_ bal _ ih => exact ih
    | single_recorded s fid bid ts type_ amount desc category acc _ hty
        hamt hcat hacc hbid ih =>
        intro t ht
        simp only [add_transaction, List.mem_append,
          List.mem_singleton] at ht
        rcases ht with h | h
        · exact ih t h
        · rw [h]; exact hamt
    | transfer_recorded s fid bid ts amount desc category accFrom accTo _
        hamt hcat haccF hbidF haccT hbidT hname ih =>
        intro t ht
        simp only [add_transaction, List.mem_append,
          List.mem_singleton] at ht
        rcases ht with h | h
        · exact ih t h
        · rw [h]; exact hamt

/-- The demo store — both demo accounts and the three scenario
transactions — is reachable through the UI. -/
theorem demoStore_reachable : Reachable ⟨demoAccounts, demoTxs⟩ := by
  have h0 := Reachable.init
  have h1 := Reachable.business_created _ 1 1 2 h0
  have h2 := Reachable.single_recorded _ 10 1 0 "Inflow" 1000
    "Client payment" "Sales" demoBank h1 (Or.inr rfl) (by norm_num)
    (by decide) (by decide) rfl
  have h3 := Reachable.single_recorded _ 11 1 1 "Outflow" 200
    "Team lunch" "Meals & Entertainment" demoBank h2 (Or.inl rfl)
    (by norm_num) (by decide) (by decide) rfl
  have h4 := Reachable.transfer_recorded _ 12 1 2 150 "Card payment"
    "Sales" demoBank demoCard h3 (by norm_num) (by decide) (by decide)
    rfl (by decide) rfl (by decide)
  exact h4

/-- Witness for C2: the unconditional append evaluated at the
non-positive payload, and the widget bound applied to the first demo
transaction of the reachable demo store. -/
theorem add_transaction_no_validation_witness :
    add_transaction [] 9 1 0 negData = [] ++ [mkTx 9 1 0 negData] ∧
    (1 : ℚ)/100 ≤ demoInflow.amount :=
  ⟨add_transaction_no_validation.1 [] 9 1 0 negData,
   add_transaction_no_validation.2 ⟨demoAccounts, demoTxs⟩
     demoStore_reachable demoInflow (by decide)⟩

/-- C5 counterexample: a Transfer whose from-account equals its
to-account is accepted by `add_transaction`: the ledger changes (length
0 to 1) and no error of any kind occurs. -/
theorem self_transfer_appends :
    selfTransferData.from_account_id = selfTransferData.to_account_id ∧
    (add_transaction [] 9 1 0 selfTransferData).length = 1 :=
  ⟨rfl, rfl⟩

/-- C5 amended: no same-account check exists anywhere in the data layer:
a Transfer with equal from- and to-account is appended like any other
transaction, and the balance fold accepts it with zero net effect on
every balance.  Only the UI form's to-account selectbox omits the
from-account's name. -/
theorem self_transfer_no_validation (ledger : List Tx)
    (fid bid ts : Nat) (data : TxData) (keys : List Nat) (m : Nat → ℚ)
    (k : Nat) (hty : data.type_ = "Transfer")
    (hfrom : data.from_account_id = some k)
    (hto : data.to_account_id = some k) (hk : k ∈ keys) :
    add_transaction ledger fid bid ts data
      = ledger ++ [mkTx fid bid ts data] ∧
    apply_transaction keys m (mkTx fid bid ts data) = some m := by
  refine ⟨rfl, ?_⟩
  have hbb : bump (bump m k (-(data.amount))) k data.amount = m := by
    funext x
    by_cases hx : x = k <;> simp [bump, hx]
  simp [apply_transaction, mkTx, hty, hfrom, hto, hk, hbb]

/-- Witness for C5 at the concrete self-transfer payload. -/
theorem self_transfer_no_validation_witness :
    add_transaction [] 9 1 0 selfTransferData
      = [] ++ [mkTx 9 1 0 selfTransferData] ∧
    apply_transaction [1, 2] (init_balances demoAccounts)
      (mkTx 9 1 0 selfTransferData) = some (init_balances demoAccounts) :=
  self_transfer_no_validation [] 9 1 0 selfTransferData [1, 2]
    (init_balances demoAccounts) 1 rfl rfl rfl (by decide)

/-- C6 counterexample: `create_account` with an empty name does not
fail and does append: the account collection grows from 0 to 1 entries
(and no identifier is returned — the Python method returns None). -/
theorem create_account_empty_name_appends :
    "".isEmpty = true ∧ (create_account [] 5 1 "" "Bank" 0).length = 1 :=
  ⟨rfl, rfl⟩

/-- C6 amended: `create_account` performs no validation at all — for
every input, including an empty name, it unconditionally appends a
record carrying the fresh id, the given fields and the active flag set,
growing the collection by one; it returns no identifier. -/
theorem create_account_unconditional (accounts : List Account)
    (fid bid : Nat) (name type_ : String) (bal : ℚ) :
    create_account accounts fid bid name type_ bal
      = accounts ++ [⟨fid, bid, name, type_, bal, true⟩] ∧
    (create_account accounts fid bid name type_ bal).length
      = accounts.length + 1 :=
  ⟨rfl, by simp [create_account]⟩

/-! ## Store invariants -/

/-- C9: in every store state reachable through the UI, every stored
transaction of kind Transfer has category exactly "Transfer" — the form
overrides the selected category for transfers — and that category is
not a member of the fixed category set `CATEGORIES`. -/
theorem transfer_category_invariant (s : Store) (hs : Reachable s) :
    ∀ t ∈ s.transactions, t.type_ = "Transfer" →
      t.category = "Transfer" ∧ t.category ∉ CATEGORIES := by
  induction hs with
  | init => intro t ht; exact absurd ht (List.not_mem_nil t)
  | business_created s bus fid1 fid2 _ ih => exact ih
  | account_created s fid bid name type_ bal _ ih => exact ih
  | single_recorded s fid bid ts type_ amount desc category acc _ hty
      hamt hcat hacc hbid ih =>
      intro t ht htr
      simp only [add_transaction, List.mem_append, List.mem_singleton] at ht
      rcases ht with h | h
      · exact ih t h htr
      · rw [h] at htr
        rcases hty with h1 | h1 <;>
          · rw [show Tx.type_ (mkTx fid bid ts
                ⟨type_, amount, desc, category, acc.id, none, none⟩)
                = type_ from rfl, h1] at htr
            exact absurd htr (by decide)
  | transfer_recorded s fid bid ts amount desc category accFrom accTo _
      hamt hcat haccF hbidF haccT hbidT hname ih =>
      intro t ht htr
      simp only [add_transaction, List.mem_append, List.mem_singleton] at ht
      rcases ht with h | h
      · exact ih t h htr
      · rw [h]
        have hnotin : ("Transfer" : String) ∉ CATEGORIES := by decide
        exact ⟨rfl, hnotin⟩

/-- Witness for C9: the demo store is reachable and its Transfer is
stored with category "Transfer", which is outside `CATEGORIES`. -/
theorem transfer_category_invariant_witness :
    demoTransfer.category = "Transfer" ∧ demoTransfer.category ∉ CATEGORIES :=
  transfer_category_invariant ⟨demoAccounts, demoTxs⟩ demoStore_reachable
    demoTransfer (by decide) rfl

/-- C10: in every store state reachable through the UI, every account
record has its active flag equal to true: `create_account` always sets
it and no operation in the program ever clears it. -/
theorem accounts_always_active (s : Store) (hs : Reachable s) :
    ∀ a ∈ s.accounts, a.is_active = true := by
  induction hs with
  | init => intro a ha; exact absurd ha (List.not_mem_nil a)
  | business_created s bus fid1 fid2 _ ih =>
      intro a ha
      simp only [create_account, List.append_assoc, List.mem_append,
        List.mem_singleton] at ha
      rcases ha with h | h | h
      · exact ih a h
      · rw [h]
      · rw [h]
  | account_created s fid bid name type_ bal _ ih =>
      intro a ha
      simp only [create_account, List.mem_append, List.mem_singleton] at ha
      rcases ha with h | h
      · exact ih a h
      · rw [h]
  | single_recorded s fid bid ts type_ amount desc category acc _ hty
      hamt hcat hacc hbid ih => exact ih
  | transfer_recorded s fid bid ts amount desc category accFrom accTo _
      hamt hcat haccF hbidF haccT hbidT hname ih => exact ih

/-- Witness for C10: the demo store is reachable and its Bank account
record is active. -/
theorem accounts_always_active_witness : demoBank.is_active = true :=
  accounts_always_active ⟨demoAccounts, demoTxs⟩ demoStore_reachable
    demoBank (by decide)

/-! ## Search filter: regex versus substring semantics -/

theorem re_match_here_no_dot :
    ∀ (pat s : List Char), '.' ∉ pat →
      re_match_here pat s = lit_match_here pat s := by
  intro pat
  induction pat with
  | nil => intro s _; rfl
  | cons p ps ih =>
      intro s hp
      cases s with
      | nil => rfl
      | cons c cs =>
          simp only [re_match_here, lit_match_here, re_char_matches]
          rw [ih cs (fun h => hp (List.mem_cons_of_mem _ h))]
          have hpd : ¬ (p = '.') := fun h => hp (h ▸ List.mem_cons_self _ _)
          simp [hpd]

theorem re_search_no_dot (pat : List Char) (hp : '.' ∉ pat) :
    ∀ s, re_search pat s = contains_ci pat s := by
  intro s
  induction s with
  | nil =>
      show re_match_here pat [] = lit_match_here pat []
      exact re_match_here_no_dot pat [] hp
  | cons c cs ih =>
      show (re_match_here pat (c :: cs) || re_search pat cs)
        = (lit_match_here pat (c :: cs) || contains_ci pat cs)
      rw [ih, re_match_here_no_dot pat _ hp]

theorem eq_singleton_of_unique {α : Type} (l : List α) (t : α)
    (hnd : l.Nodup) (hall : ∀ x ∈ l, x = t) (hmem : t ∈ l) : l = [t] := by
  cases l with
  | nil => exact absurd hmem (List.not_mem_nil t)
  | cons a l' =>
      have ha : a = t := hall a (List.mem_cons_self a l')
      subst ha
      cases l' with
      | nil => rfl
      | cons b l'' =>
          have hb : b = a := hall b (by simp)
          rw [List.nodup_cons] at hnd
          have hmem' : a ∈ b :: l'' := by
            rw [hb]; exact List.mem_cons_self a l''
          exact absurd hmem' hnd.1

/-- C8 counterexample: searching for "." — a string contained in no
description and no category of the ledger — returns the transaction
anyway, because pandas `str.contains` interprets the search string as a
regular expression in which the dot matches any character; so the
returned list is not the list of case-insensitive substring matches. -/
theorem search_regex_counterexample :
    filter_transactions [demoOutflow] 1 "." = [demoOutflow] ∧
    spec_filter_transactions [demoOutflow] 1 "." = [] ∧
    contains_ci ".".data demoOutflow.description.data = false ∧
    contains_ci ".".data demoOutflow.category.data = false := by
  refine ⟨?_, ?_, ?_, ?_⟩ <;> decide

/-- C8 amended: for every search string free of regex metacharacters,
the ledger search returns exactly the transactions of the business
whose description or category contains the search as a case-insensitive
substring; and when exactly one transaction of a duplicate-free ledger
matches a non-empty such search, exactly that transaction is returned.
(For searches holding regex metacharacters the pandas filter applies
regex semantics instead.) -/
theorem filter_transactions_substring (transactions : List Tx)
    (bid : Nat) (search : String)
    (hmeta : ∀ c ∈ search.data, c ∉ regex_metachars) :
    filter_transactions transactions bid search
      = spec_filter_transactions transactions bid search ∧
    ∀ t ∈ get_transactions transactions bid,
      spec_match search t = true →
      (∀ t' ∈ get_transactions transactions bid,
        spec_match search t' = true → t' = t) →
      search.data ≠ [] →
      (get_transactions transactions bid).Nodup →
      filter_transactions transactions bid search = [t] := by
  have hdot : '.' ∉ search.data := fun h => (hmeta '.' h) (by decide)
  have h1 : filter_transactions transactions bid search
      = spec_filter_transactions transactions bid search := by
    unfold filter_transactions spec_filter_transactions
    by_cases hs : search = ""
    · rw [if_pos hs, if_pos hs]
    · rw [if_neg hs, if_neg hs]
      congr 1
      funext t
      show (re_search search.data t.description.data
          || re_search search.data t.category.data) = spec_match search t
      unfold spec_match
      rw [re_search_no_dot _ hdot, re_search_no_dot _ hdot]
  refine ⟨h1, ?_⟩
  intro t ht hmatch huniq hne hnd
  have hs : ¬ (search = "") := by
    intro h
    exact hne (by rw [h])
  rw [h1]
  unfold spec_filter_transactions
  rw [if_neg hs]
  apply eq_singleton_of_unique
  · exact List.Nodup.filter _ hnd
  · intro x hx
    have hx' := List.mem_filter.mp hx
    exact huniq x hx'.1 hx'.2
  · exact List.mem_filter.mpr ⟨ht, hmatch⟩

/-- Witness for C8 at the search "lunch", which matches only the demo
outflow's description. -/
theorem filter_transactions_substring_witness :
    (∀ c ∈ "lunch".data, c ∉ regex_metachars) ∧
    (filter_transactions demoTxs 1 "lunch"
        = spec_filter_transactions demoTxs 1 "lunch" ∧
      ∀ t ∈ get_transactions demoTxs 1,
        spec_match "lunch" t = true →
        (∀ t' ∈ get_transactions demoTxs 1,
          spec_match "lunch" t' = true → t' = t) →
        "lunch".data ≠ [] →
        (get_transactions demoTxs 1).Nodup →
        filter_transactions demoTxs 1 "lunch" = [t]) :=
  ⟨by decide, filter_transactions_substring demoTxs 1 "lunch" (by decide)⟩
